import Mathlib

/-!
Verification of the resumable mlflow export/import migration engine.

This file shallowly embeds the parts of the code base that the verified
properties talk about:

* `mlflow_export_import/model/import_model.py`
  (`AllModelImporter.fix_missing_version`, `fix_missing_run_version`,
  `AllModelImporter.import_model`, `BaseModelImporter._import_model`),
* `mlflow_export_import/experiment/export_experiment.py`
  (`ExperimentExporter._save_status` and the three manifest readers),
* `mlflow_export_import/experiment/import_experiment.py`
  (`ExperimentImporter.import_experiment`),
* `mlflow_export_import/bulk/import_models.py` (`_import_models`),
* `mlflow_export_import/common/mlflow_utils.py` (`set_experiment`).

Conventions of the embedding:

* A Python dict describing a model version becomes the structure `Version`.
  The source stores version numbers as decimal strings and converts with
  `int(...)` / `str(...)` wherever it compares, sorts or synthesizes them;
  the embedding keeps the field as a `Nat` (on canonical decimal strings
  the string comparisons performed by the source agree with comparison of
  the parsed numbers).
* Code that can raise an exception is embedded with `Option`/`Except`:
  `none` / `Except.error` is a raised exception.
* Python's `sorted` is a stable sort; it is embedded with Mathlib's
  stable `List.insertionSort`.
-/

namespace MlflowEI

/-- A model-version entry as handled by `import_model.py`: the nine keys of
the exported version dict that the code under verification reads or writes. -/
structure Version where
  version : Nat
  run_id : String
  source : String
  user_id : String
  run_artifact_uri : String
  experiment_name : String
  current_stage : String
  description : String
  tags : List (String × String)
deriving DecidableEq

/-- Sort key of `sorted(versions, key=lambda x: int(x["version"]))`. -/
def vle (a b : Version) : Prop := a.version ≤ b.version

instance : DecidableRel vle := fun a b =>
  decidable_of_iff (a.version ≤ b.version) Iff.rfl

instance : IsTotal Version vle := ⟨fun a b => Nat.le_total a.version b.version⟩

instance : IsTrans Version vle := ⟨fun _ _ _ hab hbc => Nat.le_trans hab hbc⟩

/-- `sorted(versions, key=lambda x: int(x["version"]))` — a stable sort on
the integer version number. -/
def sortByVersion (vs : List Version) : List Version := List.insertionSort vle vs

/-- `versions_int = [int(v["version"]) for v in versions]`. -/
def vNums (vs : List Version) : List Nat := vs.map (fun v => v.version)

/-- `max(versions_int)`; total embedding of Python `max` for lists of
naturals (callers only use it on nonempty lists — on `[]` Python raises). -/
def maxV (vs : List Version) : Nat := (vNums vs).foldl max 0

/-- `[v for v in range(1, max(versions_int)+1) if v not in versions_int]`. -/
def missingVersions (vs : List Version) : List Nat :=
  (List.range' 1 (maxV vs)).filter (fun g => decide (g ∉ vNums vs))

/-- The synthesized placeholder built by `fix_missing_version` for gap `g`
from the copied entry `v`: the description is annotated (with `v`'s original
number), then the version is set to `g` and the stage to `Archived`,
mirroring the statement order in the source. -/
def mkFiller (v : Version) (g : Nat) : Version :=
  { v with
      description := "Copy of version " ++ toString v.version ++
        " fixed to not mess with the version ordering",
      version := g,
      current_stage := "Archived" }

/-- The lookup of the entry copied for a gap `g ≠ 1`:
`previous_version = [v for v in versions if int(v["version"]) == missing-1]`,
falling back to the already synthesized `results` when empty, then `[0]`. -/
def pickPrevious (vs acc : List Version) (g : Nat) : Option Version :=
  let prev := vs.filter (fun v => v.version == g - 1)
  let prev := if prev.isEmpty then acc.filter (fun v => v.version == g - 1) else prev
  prev.head?

/-- The `for missing in missing_versions` loop of `fix_missing_version`,
threading the growing `results` list; `none` embeds the `IndexError` Python
would raise if no entry to copy were found. -/
def fixLoop (vs : List Version) : List Nat → List Version → Option (List Version)
  | [], results => some results
  | g :: rest, results =>
    match (if g = 1 then (sortByVersion vs).head? else pickPrevious vs results g) with
    | none => none
    | some w => fixLoop vs rest (results ++ [mkFiller w g])

/-- `AllModelImporter.fix_missing_version` (import_model.py:181-209): returns
the list of synthesized placeholder entries for the gaps of `versions`.
`none` embeds the `ValueError` of `max(())` on an empty input. -/
def fix_missing_version (versions : List Version) : Option (List Version) :=
  if versions.isEmpty then none
  else fixLoop versions (missingVersions versions) []

/-- A concrete version entry used in witnesses and counterexamples. -/
def sampleV (n : Nat) (rid : String) : Version :=
  { version := n
    run_id := rid
    source := "dbfs:/art/" ++ rid ++ "/artifacts/model"
    user_id := "alice"
    run_artifact_uri := "dbfs:/art/" ++ rid
    experiment_name := "/Users/alice/exp"
    current_stage := "Production"
    description := "desc " ++ rid
    tags := [] }

example :
    fix_missing_version [sampleV 1 "r1", sampleV 2 "r2", sampleV 4 "r4", sampleV 6 "r6"] =
      some [mkFiller (sampleV 2 "r2") 3, mkFiller (sampleV 4 "r4") 5] := by rfl

example : fix_missing_version [sampleV 1 "r1", sampleV 2 "r2"] = some [] := by rfl

example :
    fix_missing_version [sampleV 2 "r2", sampleV 4 "r4"] =
      some [mkFiller (sampleV 2 "r2") 1, mkFiller (sampleV 2 "r2") 3] := by rfl

/-! Support lemmas about the stable sort and the gap-filling loop. -/

lemma mkFiller_version (v : Version) (g : Nat) : (mkFiller v g).version = g := rfl

lemma mkFiller_stage (v : Version) (g : Nat) :
    (mkFiller v g).current_stage = "Archived" := rfl

lemma mem_sortByVersion {a : Version} {l : List Version} :
    a ∈ sortByVersion l ↔ a ∈ l :=
  (List.perm_insertionSort vle l).mem_iff

lemma sortByVersion_head_min {l : List Version} {w : Version}
    (h : (sortByVersion l).head? = some w) :
    w ∈ l ∧ ∀ u ∈ l, w.version ≤ u.version := by
  have hs : List.Sorted vle (sortByVersion l) := List.sorted_insertionSort vle l
  cases hsl : sortByVersion l with
  | nil => rw [hsl] at h; exact absurd h (by simp)
  | cons x t =>
    rw [hsl] at h hs
    have hw : x = w := by simpa using h
    subst hw
    constructor
    · exact mem_sortByVersion.mp (by rw [hsl]; exact List.mem_cons_self x t)
    · intro u hu
      have hu2 : u ∈ x :: t := by rw [← hsl]; exact mem_sortByVersion.mpr hu
      rcases List.mem_cons.mp hu2 with h1 | h2
      · exact h1 ▸ le_refl _
      · exact List.rel_of_sorted_cons hs u h2

lemma sortByVersion_ne_nil {l : List Version} (h : l ≠ []) :
    sortByVersion l ≠ [] := by
  intro hnil
  have hp : l.Perm [] := by
    rw [← hnil]; exact (List.perm_insertionSort vle l).symm
  exact h hp.eq_nil

lemma vNums_append (a b : List Version) : vNums (a ++ b) = vNums a ++ vNums b := by
  simp [vNums]

lemma mem_vNums {n : Nat} {vs : List Version} :
    n ∈ vNums vs ↔ ∃ v ∈ vs, v.version = n := by
  simp [vNums]

/-- What `fix_missing_version` guarantees of each synthesized entry `e` of
its result `res`: it is archived and is a deep copy (with annotated
description and renumbered version) of an entry `w` numbered one below it —
taken from the input `vs` or from earlier synthesized entries — or, for the
gap `1`, of a lowest-numbered input entry. -/
def FillerSpec (vs res : List Version) (e : Version) : Prop :=
  e.current_stage = "Archived" ∧
  ∃ w, (w ∈ vs ∨ w ∈ res) ∧ e = mkFiller w e.version ∧
    (e.version = 1 → w ∈ vs ∧ ∀ u ∈ vs, w.version ≤ u.version) ∧
    (e.version ≠ 1 → w.version + 1 = e.version)

lemma fixLoop_spec (vs : List Version) (hvs : vs ≠ []) :
    ∀ (missing : List Nat) (acc : List Version),
      missing.Pairwise (· < ·) →
      (∀ g ∈ missing, 1 ≤ g) →
      (∀ g ∈ missing, g = 1 ∨ (g - 1) ∈ vNums vs ∨ (g - 1) ∈ vNums acc ∨ (g - 1) ∈ missing) →
      ∃ res, fixLoop vs missing acc = some res ∧
        vNums res = vNums acc ++ missing ∧
        (∃ t, res = acc ++ t) ∧
        (∀ e ∈ res, e ∈ acc ∨ FillerSpec vs res e) := by
  intro missing
  induction missing with
  | nil =>
    intro acc _ _ _
    exact ⟨acc, rfl, by simp, ⟨[], by simp⟩, fun e he => Or.inl he⟩
  | cons g rest ih =>
    intro acc hpw hge1 hprev
    have hg1 : 1 ≤ g := hge1 g (List.mem_cons_self _ _)
    -- the copied entry for this gap
    have hstep : ∃ w, (if g = 1 then (sortByVersion vs).head? else pickPrevious vs acc g) = some w ∧
        (w ∈ vs ∨ w ∈ acc) ∧
        (g = 1 → w ∈ vs ∧ ∀ u ∈ vs, w.version ≤ u.version) ∧
        (g ≠ 1 → w.version + 1 = g) := by
      by_cases hg : g = 1
      · subst hg
        cases hsv : sortByVersion vs with
        | nil => exact absurd hsv (sortByVersion_ne_nil hvs)
        | cons x t =>
          have hhead : (sortByVersion vs).head? = some x := by rw [hsv]; rfl
          have hmin := sortByVersion_head_min hhead
          exact ⟨x, by simp [hhead], Or.inl hmin.1, fun _ => hmin, fun h => absurd rfl h⟩
      · -- g ≥ 2 : the predecessor number is in the input or already synthesized
        have hpred : (g - 1) ∈ vNums vs ∨ (g - 1) ∈ vNums acc := by
          rcases hprev g (List.mem_cons_self _ _) with h1 | h2 | h3 | h4
          · exact absurd h1 hg
          · exact Or.inl h2
          · exact Or.inr h3
          · rcases List.mem_cons.mp h4 with h5 | h6
            · omega
            · have := (List.pairwise_cons.mp hpw).1 _ h6
              omega
        by_cases hinvs : (g - 1) ∈ vNums vs
        · -- found among the input versions
          rcases mem_vNums.mp hinvs with ⟨v, hv, hveq⟩
          have hvf : v ∈ vs.filter (fun v => v.version == g - 1) :=
            List.mem_filter.mpr ⟨hv, by simp [hveq]⟩
          cases hf : vs.filter (fun v => v.version == g - 1) with
          | nil => rw [hf] at hvf; cases hvf
          | cons x t =>
            have hx : x ∈ vs.filter (fun v => v.version == g - 1) := by
              rw [hf]; exact List.mem_cons_self _ _
            have hx2 := List.mem_filter.mp hx
            have hxv : x.version = g - 1 := by simpa using hx2.2
            refine ⟨x, ?_, Or.inl hx2.1, fun h => absurd h hg, fun _ => by omega⟩
            simp [hg, pickPrevious, hf]
        · -- not among the input versions: found among the synthesized ones
          have hacc : (g - 1) ∈ vNums acc := hpred.resolve_left hinvs
          have hnone : vs.filter (fun v => v.version == g - 1) = [] := by
            rw [List.filter_eq_nil_iff]
            intro v hv hveq
            exact hinvs (mem_vNums.mpr ⟨v, hv, by simpa using hveq⟩)
          rcases mem_vNums.mp hacc with ⟨v, hv, hveq⟩
          have hvf : v ∈ acc.filter (fun v => v.version == g - 1) :=
            List.mem_filter.mpr ⟨hv, by simp [hveq]⟩
          cases hf : acc.filter (fun v => v.version == g - 1) with
          | nil => rw [hf] at hvf; cases hvf
          | cons x t =>
            have hx : x ∈ acc.filter (fun v => v.version == g - 1) := by
              rw [hf]; exact List.mem_cons_self _ _
            have hx2 := List.mem_filter.mp hx
            have hxv : x.version = g - 1 := by simpa using hx2.2
            refine ⟨x, ?_, Or.inr hx2.1, fun h => absurd h hg, fun _ => by omega⟩
            simp [hg, pickPrevious, hnone, hf]
    rcases hstep with ⟨w, hsome, hw, hw1, hwsucc⟩
    have hunf : fixLoop vs (g :: rest) acc = fixLoop vs rest (acc ++ [mkFiller w g]) := by
      simp only [fixLoop, hsome]
    -- apply the induction hypothesis to the extended accumulator
    have hpw2 : rest.Pairwise (· < ·) := (List.pairwise_cons.mp hpw).2
    have hge2 : ∀ g2 ∈ rest, 1 ≤ g2 := fun g2 h => hge1 g2 (List.mem_cons_of_mem _ h)
    have hacc2 : vNums (acc ++ [mkFiller w g]) = vNums acc ++ [g] := by
      simp [vNums_append, vNums, mkFiller_version]
    have hprev2 : ∀ g2 ∈ rest, g2 = 1 ∨ (g2 - 1) ∈ vNums vs ∨
        (g2 - 1) ∈ vNums (acc ++ [mkFiller w g]) ∨ (g2 - 1) ∈ rest := by
      intro g2 h2
      rcases hprev g2 (List.mem_cons_of_mem _ h2) with h1 | hb | hc | hd
      · exact Or.inl h1
      · exact Or.inr (Or.inl hb)
      · exact Or.inr (Or.inr (Or.inl (by rw [hacc2]; exact List.mem_append_left _ hc)))
      · rcases List.mem_cons.mp hd with he | hf
        · refine Or.inr (Or.inr (Or.inl ?_))
          rw [hacc2, he]
          exact List.mem_append_right _ (List.mem_cons_self _ _)
        · exact Or.inr (Or.inr (Or.inr hf))
    rcases ih (acc ++ [mkFiller w g]) hpw2 hge2 hprev2 with
      ⟨res, heq, hnums, ⟨t, ht⟩, hgood⟩
    refine ⟨res, by rw [hunf]; exact heq, ?_, ⟨mkFiller w g :: t, by simp [ht]⟩, ?_⟩
    · rw [hnums, hacc2]; simp
    · intro e he
      rcases hgood e he with hacc' | hfill
      · rcases List.mem_append.mp hacc' with hin | hone
        · exact Or.inl hin
        · -- e is the entry synthesized for this gap
          have he2 : e = mkFiller w g := by simpa using hone
          subst he2
          refine Or.inr ⟨mkFiller_stage w g, w, ?_, by rw [mkFiller_version], ?_, ?_⟩
          · rcases hw with hwv | hwa
            · exact Or.inl hwv
            · refine Or.inr ?_
              rw [ht]
              exact List.mem_append_left _ (List.mem_append_left _ hwa)
          · rw [mkFiller_version]; intro h1; exact hw1 h1
          · rw [mkFiller_version]; intro h1; exact hwsucc h1
      · exact Or.inr hfill

lemma missingVersions_pairwise (vs : List Version) :
    (missingVersions vs).Pairwise (· < ·) :=
  List.Pairwise.sublist (List.filter_sublist _) (List.pairwise_lt_range' 1 (maxV vs))

lemma mem_missingVersions {g : Nat} {vs : List Version} :
    g ∈ missingVersions vs ↔ 1 ≤ g ∧ g < 1 + maxV vs ∧ g ∉ vNums vs := by
  simp [missingVersions, List.mem_filter, List.mem_range'_1, and_assoc]

/-- C1: for every nonempty version list, `fix_missing_version` synthesizes,
for each integer `g` in `[1, max(existing)]` missing from the existing
sequence numbers, a deep copy of the entry with sequence number `g-1` (or,
when `g = 1`, of the lowest existing entry), renumbered to `g`, with
`current_stage` set to `Archived` and an annotated description, so that the
input together with the synthesized entries covers the contiguous range
`1..max`; in particular input `{1,2,4,6}` yields exactly the synthesized
entries `3` (copy of `2`) and `5` (copy of `4`), both archived. -/
theorem fix_missing_version_fills_gaps :
    (∀ vs : List Version, vs ≠ [] →
      ∃ res, fix_missing_version vs = some res ∧
        (∀ g, 1 ≤ g → g ≤ maxV vs → g ∈ vNums vs ∨ g ∈ vNums res) ∧
        (∀ e ∈ res, e.version ∉ vNums vs ∧ FillerSpec vs res e)) ∧
    fix_missing_version [sampleV 1 "r1", sampleV 2 "r2", sampleV 4 "r4", sampleV 6 "r6"] =
      some [mkFiller (sampleV 2 "r2") 3, mkFiller (sampleV 4 "r4") 5] := by
  constructor
  · intro vs hvs
    have hge1 : ∀ g ∈ missingVersions vs, 1 ≤ g :=
      fun g hg => (mem_missingVersions.mp hg).1
    have hprev : ∀ g ∈ missingVersions vs, g = 1 ∨ (g - 1) ∈ vNums vs ∨
        (g - 1) ∈ vNums ([] : List Version) ∨ (g - 1) ∈ missingVersions vs := by
      intro g hg
      by_cases hg1 : g = 1
      · exact Or.inl hg1
      · by_cases hin : (g - 1) ∈ vNums vs
        · exact Or.inr (Or.inl hin)
        · refine Or.inr (Or.inr (Or.inr ?_))
          have hb := mem_missingVersions.mp hg
          exact mem_missingVersions.mpr ⟨by omega, by omega, hin⟩
    rcases fixLoop_spec vs hvs (missingVersions vs) [] (missingVersions_pairwise vs)
      hge1 hprev with ⟨res, heq, hnums, _, hgood⟩
    have hfmv : fix_missing_version vs = some res := by
      have hne : ¬ (vs.isEmpty = true) := by simpa [List.isEmpty_iff] using hvs
      unfold fix_missing_version
      rw [if_neg hne]
      exact heq
    have hnums2 : vNums res = missingVersions vs := by
      rw [hnums]; simp [vNums]
    refine ⟨res, hfmv, ?_, ?_⟩
    · intro g h1 h2
      by_cases hin : g ∈ vNums vs
      · exact Or.inl hin
      · refine Or.inr ?_
        rw [hnums2]
        exact mem_missingVersions.mpr ⟨h1, by omega, hin⟩
    · intro e he
      have hev : e.version ∈ missingVersions vs := by
        rw [← hnums2]
        exact mem_vNums.mpr ⟨e, he, rfl⟩
      have hnotin : e.version ∉ vNums vs := (mem_missingVersions.mp hev).2.2
      rcases hgood e he with h0 | hf
      · cases h0
      · exact ⟨hnotin, hf⟩
  · rfl

/-- Witness for C1 at the concrete input `{1,2,4,6}`. -/
theorem fix_missing_version_fills_gaps_witness :
    ([sampleV 1 "r1", sampleV 2 "r2", sampleV 4 "r4", sampleV 6 "r6"] ≠ ([] : List Version)) ∧
    ∃ res, fix_missing_version
        [sampleV 1 "r1", sampleV 2 "r2", sampleV 4 "r4", sampleV 6 "r6"] = some res ∧
      (∀ g, 1 ≤ g →
        g ≤ maxV [sampleV 1 "r1", sampleV 2 "r2", sampleV 4 "r4", sampleV 6 "r6"] →
        g ∈ vNums [sampleV 1 "r1", sampleV 2 "r2", sampleV 4 "r4", sampleV 6 "r6"] ∨
        g ∈ vNums res) ∧
      (∀ e ∈ res,
        e.version ∉ vNums [sampleV 1 "r1", sampleV 2 "r2", sampleV 4 "r4", sampleV 6 "r6"] ∧
        FillerSpec [sampleV 1 "r1", sampleV 2 "r2", sampleV 4 "r4", sampleV 6 "r6"] res e) :=
  ⟨by simp, fix_missing_version_fills_gaps.1 _ (by simp)⟩

/-- C10: for every nonempty version list whose integer sequence numbers
already cover the contiguous range `1..max`, `fix_missing_version`
synthesizes nothing: it returns the empty list. -/
theorem fix_missing_version_contiguous_identity :
    ∀ vs : List Version, vs ≠ [] →
      (∀ g, 1 ≤ g → g ≤ maxV vs → g ∈ vNums vs) →
      fix_missing_version vs = some [] := by
  intro vs hvs hcov
  have hmv : missingVersions vs = [] := by
    unfold missingVersions
    rw [List.filter_eq_nil_iff]
    intro g hgr
    rw [List.mem_range'_1] at hgr
    simp only [decide_eq_true_eq, not_not]
    exact hcov g hgr.1 (by omega)
  have hne : ¬ (vs.isEmpty = true) := by simpa [List.isEmpty_iff] using hvs
  unfold fix_missing_version
  rw [if_neg hne, hmv]
  rfl

/-- Witness for C10 at the contiguous input `{1,2}`. -/
theorem fix_missing_version_contiguous_identity_witness :
    ([sampleV 1 "a", sampleV 2 "b"] ≠ ([] : List Version)) ∧
    fix_missing_version [sampleV 1 "a", sampleV 2 "b"] = some [] :=
  ⟨by simp,
    fix_missing_version_contiguous_identity _ (by simp)
      (by
        intro g h1 h2
        have hm : maxV [sampleV 1 "a", sampleV 2 "b"] = 2 := rfl
        rw [hm] at h2
        interval_cases g <;> decide)⟩

/-! The creation phase of `AllModelImporter.import_model`
(import_model.py:250-314) and the bulk fan-out of `_import_models`
(bulk/import_models.py:59-78). -/

/-- `todo = list(filter(lambda x: x["version"] not in previous_versions, all))`
(import_model.py:271): the versions not recorded in `import-model.json`. -/
def modelTodo (all : List Version) (previous : List Nat) : List Version :=
  all.filter (fun v => decide (v.version ∉ previous))

/-- `versions = sorted(todo, key=lambda x: int(x["version"]))`
(import_model.py:272): the order in which `import_model` issues its
`create_model_version` calls. -/
def creationOrder (all : List Version) (previous : List Nat) : List Version :=
  sortByVersion (modelTodo all previous)

/-- The sequential `for vr in versions` creation loop of
`AllModelImporter.import_model` (import_model.py:276-284): `dst k` is the
version number the destination assigns to the `k`-th
`create_model_version` call of this run; when it differs from the expected
source number the loop raises `(expected, assigned)` and stops. -/
def replayFrom (dst : Nat → Nat) : List Version → Nat → Except (Nat × Nat) (List Nat)
  | [], _ => Except.ok []
  | v :: rest, k =>
    if dst k = v.version then
      match replayFrom dst rest (k + 1) with
      | Except.ok created => Except.ok (dst k :: created)
      | Except.error e => Except.error e
    else Except.error (v.version, dst k)

/-- The destination numbers of the `create_model_version` calls actually
issued (the call happens before the mismatch check, so the mismatching call
itself is still counted; nothing is issued after it). -/
def replayCreates (dst : Nat → Nat) : List Version → Nat → List Nat
  | [], _ => []
  | v :: rest, k =>
    if dst k = v.version then dst k :: replayCreates dst rest (k + 1) else [dst k]

/-- The creation phase of `AllModelImporter.import_model` for one model. -/
def importModelRun (dst : Nat → Nat) (all : List Version) (previous : List Nat) :
    Except (Nat × Nat) (List Nat) :=
  replayFrom dst (creationOrder all previous) 0

/-- One model-import task as submitted by `_import_models`. -/
structure ModelJob where
  all : List Version
  previous : List Nat
  dst : Nat → Nat

/-- `_import_models` (bulk/import_models.py:72-75): each model is submitted
as its own executor task; an exception stays inside that task's future and
is never re-raised into the loop, so the outcome of each model is exactly
its standalone import outcome. -/
def importModelsBulk (jobs : List ModelJob) : List (Except (Nat × Nat) (List Nat)) :=
  jobs.map (fun j => importModelRun j.dst j.all j.previous)

/-- C2: `create_model_version` calls are issued in ascending integer
version order — whenever call `i` creates a smaller version than call `j`,
call `i` was issued first. -/
theorem create_model_version_calls_ascending :
    ∀ (all : List Version) (previous : List Nat) (i j : Nat) (vi vj : Version),
      (creationOrder all previous)[i]? = some vi →
      (creationOrder all previous)[j]? = some vj →
      vi.version < vj.version → i < j := by
  intro all previous i j vi vj hi hj hlt
  have hs : List.Sorted vle (creationOrder all previous) :=
    List.sorted_insertionSort vle _
  rcases List.getElem?_eq_some.mp hi with ⟨hilt, hig⟩
  rcases List.getElem?_eq_some.mp hj with ⟨hjlt, hjg⟩
  by_contra hij
  rcases Nat.lt_or_ge j i with hji | hji2
  · have hrel := List.pairwise_iff_getElem.mp hs j i hjlt hilt hji
    rw [hig, hjg] at hrel
    have : vj.version ≤ vi.version := hrel
    omega
  · have hij2 : i = j := by omega
    subst hij2
    rw [hig] at hjg
    rw [hjg] at hlt
    omega

/-- Witness for C2 on a concrete two-version todo list. -/
theorem create_model_version_calls_ascending_witness :
    (creationOrder [sampleV 2 "b", sampleV 1 "a"] [])[0]? = some (sampleV 1 "a") ∧
    (creationOrder [sampleV 2 "b", sampleV 1 "a"] [])[1]? = some (sampleV 2 "b") ∧
    (0 : Nat) < 1 :=
  ⟨rfl, rfl,
    create_model_version_calls_ascending [sampleV 2 "b", sampleV 1 "a"] [] 0 1
      (sampleV 1 "a") (sampleV 2 "b") rfl rfl (by decide)⟩

lemma replayFrom_first_mismatch (dst : Nat → Nat) :
    ∀ (vs : List Version) (k i : Nat) (v : Version),
      vs[i]? = some v →
      (∀ m, m < i → ∀ w, vs[m]? = some w → dst (k + m) = w.version) →
      dst (k + i) ≠ v.version →
      replayFrom dst vs k = Except.error (v.version, dst (k + i)) ∧
      (replayCreates dst vs k).length = i + 1 := by
  intro vs
  induction vs with
  | nil => intro k i v hv _ _; simp at hv
  | cons x rest ih =>
    intro k i v hv hpre hne
    cases i with
    | zero =>
      have hx : x = v := by simpa using hv
      subst hx
      rw [Nat.add_zero] at hne
      exact ⟨by simp [replayFrom, hne], by simp [replayCreates, hne]⟩
    | succ i2 =>
      have hd : dst k = x.version := by
        have := hpre 0 (Nat.succ_pos _) x (by simp)
        simpa using this
      have hv2 : rest[i2]? = some v := by simpa using hv
      have hpre2 : ∀ m, m < i2 → ∀ w, rest[m]? = some w → dst (k + 1 + m) = w.version := by
        intro m hm w hw
        have h3 := hpre (m + 1) (by omega) w (by simpa using hw)
        rw [show k + (m + 1) = k + 1 + m by omega] at h3
        exact h3
      have hne2 : dst (k + 1 + i2) ≠ v.version := by
        rw [show k + 1 + i2 = k + (i2 + 1) by omega]
        exact hne
      rcases ih (k + 1) i2 v hv2 hpre2 hne2 with ⟨h1, h2⟩
      constructor
      · rw [show k + (i2 + 1) = k + 1 + i2 by omega]
        simp [replayFrom, hd, h1]
      · simp [replayCreates, hd, h2]

/-- C3: after each creation the destination-assigned number is checked
against the expected source number; at the first mismatch `import_model`
raises `(expected, assigned)` — no later version of that model is created —
while in the bulk `_import_models` fan-out every model's outcome equals its
standalone outcome, so one model's failure never affects its siblings. -/
theorem version_mismatch_aborts_only_that_model :
    (∀ (dst : Nat → Nat) (all : List Version) (previous : List Nat) (i : Nat) (v : Version),
      (creationOrder all previous)[i]? = some v →
      (∀ m, m < i → ∀ w, (creationOrder all previous)[m]? = some w → dst m = w.version) →
      dst i ≠ v.version →
      importModelRun dst all previous = Except.error (v.version, dst i) ∧
      (replayCreates dst (creationOrder all previous) 0).length = i + 1) ∧
    (∀ (jobs : List ModelJob) (i : Nat) (j : ModelJob), jobs[i]? = some j →
      (importModelsBulk jobs)[i]? = some (importModelRun j.dst j.all j.previous)) := by
  constructor
  · intro dst all previous i v hv hpre hne
    have h := replayFrom_first_mismatch dst (creationOrder all previous) 0 i v hv
      (by intro m hm w hw; simpa using hpre m hm w hw) (by simpa using hne)
    simpa [importModelRun] using h
  · intro jobs i j hj
    rw [importModelsBulk, List.getElem?_map, hj]
    rfl

/-- The destination counter used in the C3 witness: it assigns `1` to the
first creation call and `7` (instead of the expected `2`) to the second. -/
def dstMismatch : Nat → Nat := fun k => if k = 0 then 1 else 7

/-- Witness for C3: the mismatch at the second call aborts that model with
the pair (expected 2, assigned 7) after exactly two creation calls, and the
bulk outcome of the model equals its standalone outcome. -/
theorem version_mismatch_aborts_only_that_model_witness :
    importModelRun dstMismatch [sampleV 1 "a", sampleV 2 "b"] [] = Except.error (2, 7) ∧
    (replayCreates dstMismatch (creationOrder [sampleV 1 "a", sampleV 2 "b"] []) 0).length = 2 ∧
    (importModelsBulk [⟨[sampleV 1 "a", sampleV 2 "b"], [], dstMismatch⟩])[0]? =
      some (importModelRun dstMismatch [sampleV 1 "a", sampleV 2 "b"] []) := by
  have h := version_mismatch_aborts_only_that_model.1 dstMismatch
    [sampleV 1 "a", sampleV 2 "b"] [] 1 (sampleV 2 "b") rfl
    (by
      intro m hm w hw
      have hm0 : m = 0 := by omega
      subst hm0
      have h0 : (creationOrder [sampleV 1 "a", sampleV 2 "b"] [])[0]? =
          some (sampleV 1 "a") := rfl
      rw [h0] at hw
      have hw2 : sampleV 1 "a" = w := Option.some.inj hw
      rw [← hw2]
      rfl)
    (by decide)
  exact ⟨h.1, h.2,
    version_mismatch_aborts_only_that_model.2
      [⟨[sampleV 1 "a", sampleV 2 "b"], [], dstMismatch⟩] 0 _ rfl⟩

/-- `to_do_runs = set(run_ids) - set(previous_import["runs"].keys())`
(import_experiment.py:102): the run ids `import_experiment` will call
`import_run` for. -/
def toDoRuns (run_ids ck_keys : List String) : List String :=
  run_ids.filter (fun r => decide (r ∉ ck_keys))

/-- C4: re-running import over an unchanged manifest and checkpoint makes
zero child-creation calls: when every manifest run id is already a key of
the checkpoint's runs map, `import_experiment` has nothing to do, and when
every reconciled version is recorded in `import-model.json`,
`import_model`'s todo list is empty and its creation loop issues no
`create_model_version` call. -/
theorem unchanged_rerun_makes_no_creation_calls :
    (∀ (run_ids ck_keys : List String),
      (∀ r ∈ run_ids, r ∈ ck_keys) → toDoRuns run_ids ck_keys = []) ∧
    (∀ (all : List Version) (previous : List Nat) (dst : Nat → Nat),
      (∀ v ∈ all, v.version ∈ previous) →
      creationOrder all previous = [] ∧
      importModelRun dst all previous = Except.ok [] ∧
      replayCreates dst (creationOrder all previous) 0 = []) := by
  constructor
  · intro run_ids ck h
    rw [toDoRuns, List.filter_eq_nil_iff]
    intro r hr
    simp [h r hr]
  · intro all previous dst h
    have htodo : modelTodo all previous = [] := by
      rw [modelTodo, List.filter_eq_nil_iff]
      intro v hv
      simp [h v hv]
    have hco : creationOrder all previous = [] := by
      rw [creationOrder, htodo]; rfl
    exact ⟨hco, by rw [importModelRun, hco]; rfl, by rw [hco]; rfl⟩

/-- Witness for C4 on a concrete manifest/checkpoint pair. -/
theorem unchanged_rerun_makes_no_creation_calls_witness :
    toDoRuns ["r1"] ["r1", "r2"] = [] ∧
    importModelRun (fun _ => 0) [sampleV 1 "a"] [1] = Except.ok [] :=
  ⟨unchanged_rerun_makes_no_creation_calls.1 ["r1"] ["r1", "r2"] (by decide),
    (unchanged_rerun_makes_no_creation_calls.2 [sampleV 1 "a"] [1] (fun _ => 0)
      (by decide)).2.1⟩

/-! The checkpoint write of `ExperimentExporter._save_status`
(export_experiment.py:79-116). -/

/-- The result merge of `_save_status` (export_experiment.py:93-98): each
drained future's `(ok, run_id)` result adds the run id to exactly one of
the two sets; the previously persisted sets are the starting point and are
never pruned. -/
def applyResults : Finset String × Finset String → List (Bool × String) →
    Finset String × Finset String
  | st, [] => st
  | st, r :: rest =>
    if r.1 then applyResults (insert r.2 st.1, st.2) rest
    else applyResults (st.1, insert r.2 st.2) rest

/-- The run ids reported successful by the drained futures. -/
def okIds (results : List (Bool × String)) : Finset String :=
  ((results.filter (fun p => p.1)).map Prod.snd).toFinset

/-- The run ids reported failed by the drained futures. -/
def failIds (results : List (Bool × String)) : Finset String :=
  ((results.filter (fun p => !p.1)).map Prod.snd).toFinset

lemma applyResults_eq :
    ∀ (results : List (Bool × String)) (a b : Finset String),
      applyResults (a, b) results = (a ∪ okIds results, b ∪ failIds results) := by
  intro results
  induction results with
  | nil => intro a b; simp [applyResults, okIds, failIds]
  | cons r rest ih =>
    intro a b
    rcases r with ⟨br, idr⟩
    cases br
    · simp [applyResults, ih, okIds, failIds, Finset.insert_union, Finset.union_insert]
    · simp [applyResults, ih, okIds, failIds, Finset.insert_union, Finset.union_insert]

lemma mem_okIds {r : String} {results : List (Bool × String)} :
    r ∈ okIds results ↔ (true, r) ∈ results := by
  constructor
  · intro h
    rcases List.mem_map.mp (List.mem_toFinset.mp h) with ⟨p, hp, hp2⟩
    rcases p with ⟨a, b⟩
    have hp3 := List.mem_filter.mp hp
    have ha : a = true := by simpa using hp3.2
    have hb : b = r := hp2
    rw [← ha, ← hb]
    exact hp3.1
  · intro h
    exact List.mem_toFinset.mpr
      (List.mem_map.mpr ⟨(true, r), List.mem_filter.mpr ⟨h, rfl⟩, rfl⟩)

lemma mem_failIds {r : String} {results : List (Bool × String)} :
    r ∈ failIds results ↔ (false, r) ∈ results := by
  constructor
  · intro h
    rcases List.mem_map.mp (List.mem_toFinset.mp h) with ⟨p, hp, hp2⟩
    rcases p with ⟨a, b⟩
    have hp3 := List.mem_filter.mp hp
    have ha : a = false := by simpa using hp3.2
    have hb : b = r := hp2
    rw [← ha, ← hb]
    exact hp3.1
  · intro h
    exact List.mem_toFinset.mpr
      (List.mem_map.mpr ⟨(false, r), List.mem_filter.mpr ⟨h, rfl⟩, rfl⟩)

/-- C5 counterexample: resume with previously persisted `ok = {r1}` and
`failed = {r2}`; `r2` is retried (it is not in the ok set) and succeeds; at
the next checkpoint write `r2` is in both the completed set and the failed
set, so the persisted sets are not disjoint. -/
theorem checkpoint_sets_overlap_on_resumed_success :
    "r2" ∈ (applyResults ({"r1"}, {"r2"}) [(true, "r2")]).1 ∧
    "r2" ∈ (applyResults ({"r1"}, {"r2"}) [(true, "r2")]).2 ∧
    ¬ Disjoint (applyResults ({"r1"}, {"r2"}) [(true, "r2")]).1
      (applyResults ({"r1"}, {"r2"}) [(true, "r2")]).2 := by
  have h1 : "r2" ∈ (applyResults ({"r1"}, {"r2"}) [(true, "r2")]).1 := by decide
  have h2 : "r2" ∈ (applyResults ({"r1"}, {"r2"}) [(true, "r2")]).2 := by decide
  exact ⟨h1, h2, fun hd => (Finset.disjoint_left.mp hd h1) h2⟩

/-- C5 (amended): the sets persisted by a checkpoint write are disjoint
provided the previously persisted sets were disjoint, each current result
carries one outcome, and no run in the previously persisted failed set
succeeds in the current run (and none of the previously completed ones is
reported failed — they are never attempted); a previously failed run that
succeeds is added to the completed set but never removed from the failed
set, so it appears in both. -/
theorem checkpoint_sets_disjoint_unless_failed_succeeds :
    ∀ (prevOk prevFailed : Finset String) (results : List (Bool × String)),
      Disjoint prevOk prevFailed →
      (∀ r, (true, r) ∈ results → r ∉ prevFailed) →
      (∀ r, (false, r) ∈ results → r ∉ prevOk) →
      (∀ r, (true, r) ∈ results → (false, r) ∉ results) →
      Disjoint (applyResults (prevOk, prevFailed) results).1
        (applyResults (prevOk, prevFailed) results).2 := by
  intro a b results hab h1 h2 h3
  rw [applyResults_eq]
  rw [Finset.disjoint_left]
  intro x hx hx2
  rcases Finset.mem_union.mp hx with hxa | hxo
  · rcases Finset.mem_union.mp hx2 with hxb | hxf
    · exact (Finset.disjoint_left.mp hab hxa) hxb
    · exact h2 x (mem_failIds.mp hxf) hxa
  · rcases Finset.mem_union.mp hx2 with hxb | hxf
    · exact h1 x (mem_okIds.mp hxo) hxb
    · exact h3 x (mem_okIds.mp hxo) (mem_failIds.mp hxf)

/-- Witness for the amended C5 on a concrete resumed run. -/
theorem checkpoint_sets_disjoint_unless_failed_succeeds_witness :
    Disjoint (applyResults ({"r1"}, {"r2"}) [(true, "r3"), (false, "r4")]).1
      (applyResults ({"r1"}, {"r2"}) [(true, "r3"), (false, "r4")]).2 :=
  checkpoint_sets_disjoint_unless_failed_succeeds {"r1"} {"r2"}
    [(true, "r3"), (false, "r4")]
    (Finset.disjoint_left.mpr (by
      intro a ha
      rw [Finset.mem_singleton] at ha
      subst ha
      decide))
    (by intro r hr; simp at hr; subst hr; decide)
    (by intro r hr; simp at hr; subst hr; decide)
    (by intro r hr; simp at hr; subst hr; decide)

/-! Idempotent destination-parent creation. -/

/-- `mlflow_utils.set_experiment` (common/mlflow_utils.py:63-70):
`createResult` is the outcome of `mlflow_client.create_experiment`
(`Except.error code` embeds a `RestException` with that `error_code`;
`existingId` is what `get_experiment_by_name(exp_name).experiment_id`
resolves to). On `RESOURCE_ALREADY_EXISTS` the existing experiment's id is
returned; any other error is re-raised. -/
def set_experiment (createResult : Except String String) (existingId : String) :
    Except String String :=
  match createResult with
  | Except.ok expId => Except.ok expId
  | Except.error code =>
    if code ≠ "RESOURCE_ALREADY_EXISTS" then Except.error code
    else Except.ok existingId

/-- Python's substring test `pat in msg`. -/
def strContains (msg pat : String) : Bool := decide (pat.data <:+: msg.data)

/-- The creation block of `BaseModelImporter._import_model`
(import_model.py:95-108): `createResult` is the outcome of
`create_registered_model` (`Except.error msg` embeds `str(e)` of a
`RestException`). On a message carrying
`RESOURCE_ALREADY_EXISTS: Registered Model` the importer proceeds with the
existing model and re-applies every tag via `set_registered_model_tag`
(the returned pair list); any other error is re-raised. A fresh creation
issues no tag-update calls (empty list). -/
def createRegisteredModel (createResult : Except String Unit)
    (tags : List (String × String)) : Except String (List (String × String)) :=
  match createResult with
  | Except.ok _ => Except.ok []
  | Except.error msg =>
    if !(strContains msg "RESOURCE_ALREADY_EXISTS: Registered Model") then
      Except.error msg
    else Except.ok tags

/-- C6: destination parent creation is idempotent by resolve-and-reuse:
when creation fails because a parent of that name already exists the
importer reuses it (for experiments the existing experiment's id is
returned; for models the import proceeds, updating the existing model's
tags); any other creation error is propagated. -/
theorem parent_creation_resolve_and_reuse :
    (∀ existingId : String,
      set_experiment (Except.error "RESOURCE_ALREADY_EXISTS") existingId =
        Except.ok existingId) ∧
    (∀ (code existingId : String), code ≠ "RESOURCE_ALREADY_EXISTS" →
      set_experiment (Except.error code) existingId = Except.error code) ∧
    (∀ (msg : String) (tags : List (String × String)),
      strContains msg "RESOURCE_ALREADY_EXISTS: Registered Model" = true →
      createRegisteredModel (Except.error msg) tags = Except.ok tags) ∧
    (∀ (msg : String) (tags : List (String × String)),
      strContains msg "RESOURCE_ALREADY_EXISTS: Registered Model" = false →
      createRegisteredModel (Except.error msg) tags = Except.error msg) := by
  refine ⟨fun e => by simp [set_experiment],
    fun c e hc => by simp [set_experiment, hc], ?_, ?_⟩
  · intro msg tags h
    simp [createRegisteredModel, h]
  · intro msg tags h
    simp [createRegisteredModel, h]

/-- Witness for C6 at concrete creation outcomes. -/
theorem parent_creation_resolve_and_reuse_witness :
    set_experiment (Except.error "RESOURCE_ALREADY_EXISTS") "exp-42" =
      Except.ok "exp-42" ∧
    set_experiment (Except.error "PERMISSION_DENIED") "exp-42" =
      Except.error "PERMISSION_DENIED" ∧
    createRegisteredModel
      (Except.error "RESOURCE_ALREADY_EXISTS: Registered Model m1 exists")
      [("team", "ds")] = Except.ok [("team", "ds")] ∧
    createRegisteredModel (Except.error "INTERNAL_ERROR") [("team", "ds")] =
      Except.error "INTERNAL_ERROR" :=
  ⟨parent_creation_resolve_and_reuse.1 "exp-42",
    parent_creation_resolve_and_reuse.2.1 _ _ (by decide),
    parent_creation_resolve_and_reuse.2.2.1 _ _ (by decide),
    parent_creation_resolve_and_reuse.2.2.2 _ _ (by decide)⟩

/-! The three manifest readers of `ExperimentExporter`
(export_experiment.py:34-64). -/

/-- The progress fields of the legacy manifest shape keyed by
`export_info`. -/
structure ExportInfoBlock where
  ok_runs : List String
  failed_runs : List String
  last_page_token : Option String

/-- The `mlflow` block of the current manifest shape. -/
structure MlflowBlock where
  runs : List String

/-- The `info` progress block of the current manifest shape. -/
structure InfoBlock where
  failed_runs : List String
  last_page_token : Option String

/-- An existing `experiment.json` manifest as the three readers see it:
which of the top-level keys `export_info`, `mlflow` and `info` are present,
and the fields read beneath them. -/
structure Manifest where
  export_info : Option ExportInfoBlock
  mlflow : Option MlflowBlock
  info : Option InfoBlock

/-- `ExperimentExporter._get_previous_ok_runs` (export_experiment.py:34-43)
on an existing manifest file. -/
def getPreviousOkRuns (m : Manifest) : Except String (List String) :=
  match m.export_info with
  | some ei => Except.ok ei.ok_runs
  | none =>
    match m.mlflow with
    | some ml => Except.ok ml.runs
    | none => Except.error "Unknown manifest format"

/-- `ExperimentExporter._get_previous_failed_runs`
(export_experiment.py:57-64) on an existing manifest file. -/
def getPreviousFailedRuns (m : Manifest) : Except String (List String) :=
  match m.info with
  | some i => Except.ok i.failed_runs
  | none => Except.error "Unknown manifest format"

/-- `ExperimentExporter._get_previous_page_token`
(export_experiment.py:46-53) on an existing manifest file. -/
def getPreviousPageToken (m : Manifest) : Except String (Option String) :=
  match m.info with
  | some i => Except.ok i.last_page_token
  | none => Except.error "Unknown manifest format"

/-- Modelled from the spec: the writer of the legacy manifest shape keyed
by `export_info` is not among the sources (only the readers are). Per the
spec's data model the two read-compatible shapes carry the same logical
data — completed runs, failed runs and cursor — one under the top-level key
`export_info` and one under `mlflow` (with its separate `info` progress
block); the `export_info` shape therefore carries no `info` block. -/
def exportInfoManifest (okRuns failedRuns : List String) (tok : Option String) :
    Manifest :=
  { export_info := some
      { ok_runs := okRuns, failed_runs := failedRuns, last_page_token := tok }
    mlflow := none
    info := none }

/-- The current manifest shape keyed by `mlflow`, as written by
`_save_status` via `io_utils.write_export_file`: an `mlflow` block plus an
`info` progress block. -/
def mlflowManifest (runs failedRuns : List String) (tok : Option String) :
    Manifest :=
  { export_info := none
    mlflow := some { runs := runs }
    info := some { failed_runs := failedRuns, last_page_token := tok } }

/-- C7 counterexample: on a legacy `export_info`-shaped manifest the
ok-runs reader succeeds, but reading the failed-run set raises
`Unknown manifest format` — not every reader accepts both shapes. -/
theorem manifest_readers_reject_export_info_shape :
    getPreviousOkRuns (exportInfoManifest ["r1"] ["r2"] none) = Except.ok ["r1"] ∧
    getPreviousFailedRuns (exportInfoManifest ["r1"] ["r2"] none) =
      Except.error "Unknown manifest format" :=
  ⟨rfl, rfl⟩

/-- C7 (amended): the ok-runs reader accepts both legacy shapes; the
failed-runs and page-token readers accept only manifests carrying an `info`
block (the `mlflow` shape) and raise `Unknown manifest format` on the
`export_info` shape. -/
theorem manifest_readers_shapes :
    (∀ (ok fl : List String) (tok : Option String),
      getPreviousOkRuns (exportInfoManifest ok fl tok) = Except.ok ok) ∧
    (∀ (runs fl : List String) (tok : Option String),
      getPreviousOkRuns (mlflowManifest runs fl tok) = Except.ok runs ∧
      getPreviousFailedRuns (mlflowManifest runs fl tok) = Except.ok fl ∧
      getPreviousPageToken (mlflowManifest runs fl tok) = Except.ok tok) ∧
    (∀ (ok fl : List String) (tok : Option String),
      getPreviousFailedRuns (exportInfoManifest ok fl tok) =
        Except.error "Unknown manifest format" ∧
      getPreviousPageToken (exportInfoManifest ok fl tok) =
        Except.error "Unknown manifest format") :=
  ⟨fun _ _ _ => rfl, fun _ _ _ => ⟨rfl, rfl, rfl⟩, fun _ _ _ => ⟨rfl, rfl⟩⟩

/-! The manual-override reconciliation
`AllModelImporter.fix_missing_run_version` (import_model.py:211-230). -/

/-- One iteration of the `for id in missing_run_ids` loop: find the first
entry whose `run_id` is the flagged id, find the first entry numbered
exactly one less, and overwrite the flagged entry in place with the copy's
`run_id`, `source`, `user_id` and artifact URI, an `Archived` stage and an
annotated description. `none` embeds the `IndexError` raised when either
lookup finds nothing. -/
def applyFix (versions : List Version) (id : String) : Option (List Version) :=
  match versions.findIdx? (fun v => v.run_id == id) with
  | none => none
  | some i =>
    match versions[i]? with
    | none => none
    | some vfix =>
      match versions.find? (fun v => v.version + 1 == vfix.version) with
      | none => none
      | some vcopy =>
        some (versions.set i
          { vfix with
              description := "Copy of version " ++ toString vcopy.version ++
                " fixed to not mess with the version ordering",
              current_stage := "Archived",
              run_id := vcopy.run_id,
              source := vcopy.source,
              user_id := vcopy.user_id,
              run_artifact_uri := vcopy.run_artifact_uri })

/-- `AllModelImporter.fix_missing_run_version` (import_model.py:211-230):
`missing_runs` is `conf["missing_runs"]` when present (a mapping from model
name to flagged run ids); flagged ids of this model are fixed one after the
other on the mutating version list. -/
def fix_missing_run_version (missing_runs : Option (List (String × List String)))
    (model_name : String) (versions : List Version) : Option (List Version) :=
  match missing_runs with
  | none => some versions
  | some mr =>
    match mr.find? (fun p => p.1 == model_name) with
    | none => some versions
    | some p => p.2.foldlM applyFix versions

/-- C8 counterexample: with existing numbers `{1, 3}` and the entry
numbered `3` flagged, the nearest lower-numbered existing entry is `1`, but
the code looks only for an entry numbered exactly `2` and raises an
`IndexError` — no substitution happens. -/
theorem fix_missing_run_version_gap_raises :
    fix_missing_run_version (some [("m", ["c"])]) "m"
      [sampleV 1 "a", sampleV 3 "c"] = none := by rfl

/-- C8 (amended): for each flagged reference the manual override
substitutes into the flagged entry the data (`run_id`, `source`, `user_id`,
artifact URI) of the first entry numbered exactly one less than it — which
is the nearest lower-numbered entry whenever the list is contiguous, as it
is at the call site after gap-filling — marks it `Archived` and annotates
its description; when no entry with that exact number exists the function
raises instead of substituting. -/
theorem fix_missing_run_version_substitutes_previous :
    ∀ (versions : List Version) (model id : String) (i : Nat) (vfix vcopy : Version),
      versions.findIdx? (fun v => v.run_id == id) = some i →
      versions[i]? = some vfix →
      versions.find? (fun v => v.version + 1 == vfix.version) = some vcopy →
      fix_missing_run_version (some [(model, [id])]) model versions =
        some (versions.set i
          { vfix with
              description := "Copy of version " ++ toString vcopy.version ++
                " fixed to not mess with the version ordering",
              current_stage := "Archived",
              run_id := vcopy.run_id,
              source := vcopy.source,
              user_id := vcopy.user_id,
              run_artifact_uri := vcopy.run_artifact_uri }) := by
  intro versions model id i vfix vcopy h1 h2 h3
  simp [fix_missing_run_version, List.find?, applyFix, h1, h2, h3]

/-- Witness for the amended C8 on a concrete flagged reference. -/
theorem fix_missing_run_version_substitutes_previous_witness :
    fix_missing_run_version (some [("m", ["b"])]) "m"
      [sampleV 1 "a", sampleV 2 "b"] =
      some ([sampleV 1 "a", sampleV 2 "b"].set 1
        { sampleV 2 "b" with
            description := "Copy of version " ++ toString (sampleV 1 "a").version ++
              " fixed to not mess with the version ordering",
            current_stage := "Archived",
            run_id := (sampleV 1 "a").run_id,
            source := (sampleV 1 "a").source,
            user_id := (sampleV 1 "a").user_id,
            run_artifact_uri := (sampleV 1 "a").run_artifact_uri }) :=
  fix_missing_run_version_substitutes_previous
    [sampleV 1 "a", sampleV 2 "b"] "m" "b" 1 (sampleV 2 "b") (sampleV 1 "a")
    rfl rfl rfl

/-! The delete-and-recreate decision of `AllModelImporter.import_model`
(import_model.py:259-265 together with `_import_model`,
import_model.py:88-93). -/

/-- The delete decision: `previous_versions` is the parsed content of
`import-model.json` when the file exists (`checkpoint = some content`) and
`[]` when it does not (`none`); `_import_model` receives
`len(previous_versions) == 0` as its delete flag, while `import_model`'s
own `delete_model` parameter is never consulted. -/
def allImportModelDeletes (delete_model : Bool) (checkpoint : Option (List Nat)) :
    Bool :=
  (checkpoint.getD []).isEmpty

/-- C9 counterexample: a checkpoint file that exists but parses to the
empty list still triggers delete-and-recreate (here with the caller passing
`delete_model := false`), although the claim allows deletion only when no
checkpoint file exists. -/
theorem import_model_delete_despite_checkpoint_file :
    allImportModelDeletes false (some []) = true ∧
    some ([] : List Nat) ≠ none :=
  ⟨rfl, by simp⟩

/-- C9 (amended): `import_model` deletes and recreates the destination
model iff the `import-model.json` checkpoint is absent or parses to an
empty version list; the caller's `delete_model` argument has no effect on
the decision. -/
theorem import_model_delete_decision :
    (∀ (b : Bool) (c : Option (List Nat)),
      allImportModelDeletes b c = true ↔ c = none ∨ c = some []) ∧
    (∀ (b1 b2 : Bool) (c : Option (List Nat)),
      allImportModelDeletes b1 c = allImportModelDeletes b2 c) := by
  constructor
  · intro b c
    cases c with
    | none => simp [allImportModelDeletes]
    | some l => simp [allImportModelDeletes, List.isEmpty_iff]
  · intro b1 b2 c
    rfl

end MlflowEI
